import Mathlib

/-!
Shallow embedding of the rootly-datadog-pagerduty migrator
(src/unnamed/part_000, the batched variant the specification describes,
with src/index.js as the legacy variant where the two differ).

Strings are modelled as `List Char`.  The JS regexes used by the script
only involve the ASCII classes `\w`, `\s` and literal text, and
`String.prototype.toLowerCase` is only ever applied to characters in
`[A-Za-z0-9_-]`, so the ASCII-level model below is exact on every code
path of the script.
-/

namespace Migrator

/-- Character class of the JS regex `[\w_-]` = `[A-Za-z0-9_-]` (the script's
`normalizedServiceName` keeps exactly these characters). -/
def isClassChar (c : Char) : Bool :=
  decide ((65 ≤ c.toNat ∧ c.toNat ≤ 90) ∨ (97 ≤ c.toNat ∧ c.toNat ≤ 122) ∨
    (48 ≤ c.toNat ∧ c.toNat ≤ 57) ∨ c.toNat = 95 ∨ c.toNat = 45)

/-- Whitespace as matched by the regex class `\s` on the ASCII range. -/
def isSpaceChar (c : Char) : Bool :=
  decide (c = ' ' ∨ c = '\t' ∨ c = '\n' ∨ c = '\r')

/-- Replacement pass of `serviceName.replace(/[^\w_-]+/g, "_")`: every maximal
run of characters outside `[A-Za-z0-9_-]` becomes a single `'_'`.  The Boolean
argument records whether the previous character was part of such a run. -/
def replaceRunsAux : Bool → List Char → List Char
  | _, [] => []
  | inRun, c :: rest =>
    if isClassChar c then c :: replaceRunsAux false rest
    else if inRun then replaceRunsAux true rest
    else '_' :: replaceRunsAux true rest

/-- Model of `serviceName.replace(/[^\w_-]+/g, "_")`. -/
def replaceRuns (s : List Char) : List Char :=
  replaceRunsAux false s

/-- Model of `.replace(/^[_-]/, "")`: strip one leading `'_'` or `'-'`. -/
def stripLeading : List Char → List Char
  | [] => []
  | c :: rest => if c = '_' ∨ c = '-' then rest else c :: rest

/-- Model of `normalizedServiceName` (src/unnamed/part_000 lines 170-172 and
src/index.js lines 124-126):
`serviceName.replace(/[^\w_-]+/g, "_").toLowerCase().replace(/^[_-]/, "")`. -/
def normalizedServiceName (s : List Char) : List Char :=
  stripLeading ((replaceRuns s).map Char.toLower)

/-- Normalizer written exactly as claim C2 words it: lowercase, replace every
individual character outside `[A-Za-z0-9_-]` with one underscore, then strip a
single leading `'_'` or `'-'`. -/
def normalizeClaimC2 (s : List Char) : List Char :=
  stripLeading ((s.map Char.toLower).map (fun c => if isClassChar c then c else '_'))

/-- Normalizer written as the amended claim C2 words it: lowercase, replace
every maximal run of consecutive characters outside `[A-Za-z0-9_-]` with one
underscore, then strip a single leading `'_'` or `'-'`. -/
def normalizeAmendedC2 (s : List Char) : List Char :=
  stripLeading (replaceRuns (s.map Char.toLower))

theorem toNat_ofNat_valid (n : Nat) (h : n.isValidChar) : (Char.ofNat n).toNat = n := by
  rw [Char.ofNat, dif_pos h]
  rfl

theorem toLower_toNat_of_upper {c : Char} (h : 65 ≤ c.toNat ∧ c.toNat ≤ 90) :
    (Char.toLower c).toNat = c.toNat + 32 := by
  have hv : (c.toNat + 32).isValidChar := Or.inl (by omega)
  simp only [Char.toLower, if_pos h]
  exact toNat_ofNat_valid _ hv

theorem toLower_eq_self {c : Char} (h : ¬(65 ≤ c.toNat ∧ c.toNat ≤ 90)) :
    Char.toLower c = c := by
  simp only [Char.toLower, if_neg h]

theorem isClassChar_toLower (c : Char) : isClassChar (Char.toLower c) = isClassChar c := by
  by_cases h : 65 ≤ c.toNat ∧ c.toNat ≤ 90
  · have h1 := toLower_toNat_of_upper h
    simp only [isClassChar, h1]
    have : (65 ≤ c.toNat ∧ c.toNat ≤ 90) := h
    simp only [decide_eq_decide]
    omega
  · rw [toLower_eq_self h]

theorem replaceRunsAux_map_toLower (b : Bool) (s : List Char) :
    (replaceRunsAux b s).map Char.toLower = replaceRunsAux b (s.map Char.toLower) := by
  induction s generalizing b with
  | nil => rfl
  | cons c rest ih =>
    simp only [replaceRunsAux, List.map_cons, isClassChar_toLower]
    by_cases hc : isClassChar c
    · simp [hc, ih]
    · have hu : Char.toLower '_' = '_' := by decide
      by_cases hb : b
      · simp [hc, hb, ih]
      · simp [hc, hb, ih, hu]

/-- Character in the lowercase image of the class: in `[a-z0-9_-]`
(equivalently, a class character that is not an ASCII capital). -/
def isLowClass (c : Char) : Bool :=
  isClassChar c && !(decide (65 ≤ c.toNat ∧ c.toNat ≤ 90))

theorem isLowClass_toLower {c : Char} (h : isClassChar c = true) :
    isLowClass (Char.toLower c) = true := by
  by_cases hu : 65 ≤ c.toNat ∧ c.toNat ≤ 90
  · have h1 := toLower_toNat_of_upper hu
    simp only [isLowClass, isClassChar, h1, Bool.and_eq_true, decide_eq_true_eq,
      Bool.not_eq_true', decide_eq_false_iff_not]
    omega
  · rw [toLower_eq_self hu]
    simp only [isLowClass, h, Bool.true_and, Bool.not_eq_true', decide_eq_false_iff_not]
    exact hu

theorem toLower_eq_self_of_low {c : Char} (h : isLowClass c = true) :
    Char.toLower c = c := by
  apply toLower_eq_self
  simp only [isLowClass, Bool.and_eq_true, Bool.not_eq_true', decide_eq_false_iff_not] at h
  exact h.2

theorem isClassChar_of_low {c : Char} (h : isLowClass c = true) :
    isClassChar c = true := by
  simp only [isLowClass, Bool.and_eq_true] at h
  exact h.1

theorem isClassChar_of_mem_replaceRunsAux {b : Bool} {s : List Char} {c : Char}
    (h : c ∈ replaceRunsAux b s) : isClassChar c = true := by
  induction s generalizing b with
  | nil => simp [replaceRunsAux] at h
  | cons d rest ih =>
    simp only [replaceRunsAux] at h
    by_cases hd : isClassChar d
    · simp only [if_pos hd, List.mem_cons] at h
      rcases h with h | h
      · exact h ▸ hd
      · exact ih h
    · by_cases hb : b
      · simp only [if_neg hd, if_pos hb] at h
        exact ih h
      · simp only [if_neg hd, hb, if_neg Bool.false_ne_true] at h
        rcases List.mem_cons.mp h with h | h
        · subst h; decide
        · exact ih h

theorem replaceRunsAux_id_of_class {s : List Char}
    (h : ∀ c ∈ s, isClassChar c = true) (b : Bool) : replaceRunsAux b s = s := by
  induction s generalizing b with
  | nil => rfl
  | cons d rest ih =>
    have hd : isClassChar d = true := h d (List.mem_cons_self d rest)
    simp only [replaceRunsAux, if_pos hd]
    rw [ih (fun c hc => h c (List.mem_cons_of_mem d hc))]

theorem map_toLower_id_of_low {s : List Char}
    (h : ∀ c ∈ s, isLowClass c = true) : s.map Char.toLower = s := by
  induction s with
  | nil => rfl
  | cons d rest ih =>
    simp only [List.map_cons]
    rw [toLower_eq_self_of_low (h d (List.mem_cons_self d rest)),
      ih (fun c hc => h c (List.mem_cons_of_mem d hc))]

theorem mem_of_mem_stripLeading {s : List Char} {c : Char}
    (h : c ∈ stripLeading s) : c ∈ s := by
  cases s with
  | nil => simp [stripLeading] at h
  | cons d rest =>
    simp only [stripLeading] at h
    by_cases hd : d = '_' ∨ d = '-'
    · rw [if_pos hd] at h
      exact List.mem_cons_of_mem d h
    · rwa [if_neg hd] at h

theorem isLowClass_of_mem_normalized {s : List Char} {c : Char}
    (h : c ∈ normalizedServiceName s) : isLowClass c = true := by
  have h1 : c ∈ (replaceRuns s).map Char.toLower := mem_of_mem_stripLeading h
  rcases List.mem_map.mp h1 with ⟨d, hd, hdc⟩
  exact hdc ▸ isLowClass_toLower (isClassChar_of_mem_replaceRunsAux hd)

/-- True when the string does not begin with `'_'` or `'-'`, so that the
leading-strip pass keeps it unchanged. -/
def leadingKept : List Char → Bool
  | [] => true
  | c :: _ => !(decide (c = '_' ∨ c = '-'))

theorem stripLeading_of_kept {s : List Char} (h : leadingKept s = true) :
    stripLeading s = s := by
  cases s with
  | nil => rfl
  | cons c rest =>
    simp only [leadingKept, Bool.not_eq_true', decide_eq_false_iff_not] at h
    simp [stripLeading, h]

end Migrator

namespace Migrator

/-- C2: the name normalizer lowercases and strips a single leading `'_'` or
`'-'`, but the regex `/[^\w_-]+/g` replaces every maximal RUN of characters
outside `[A-Za-z0-9_-]` with one underscore, not every individual character:
on `"a  b"` the code yields `"a_b"` while the claim's description yields
`"a__b"`. -/
theorem claim_C2_counterexample :
    normalizedServiceName "a  b".toList ≠ normalizeClaimC2 "a  b".toList := by
  decide

/-- C2 (amended): for every input string the name normalizer returns the
string obtained by lowercasing, replacing every maximal run of consecutive
characters outside `[A-Za-z0-9_-]` with one underscore `'_'`, and then
stripping a single leading `'_'` or `'-'` if present; it is pure and total
with no failure mode. -/
theorem claim_C2_theorem (s : List Char) :
    normalizedServiceName s = normalizeAmendedC2 s := by
  unfold normalizedServiceName normalizeAmendedC2 replaceRuns
  rw [replaceRunsAux_map_toLower]

/-- C3: the normalizer is not idempotent: `"--a"` normalizes to `"-a"`
(only one leading dash is stripped), which normalizes again to `"a"`. -/
theorem claim_C3_counterexample :
    normalizedServiceName (normalizedServiceName "--a".toList) ≠
      normalizedServiceName "--a".toList := by
  decide

/-- C3 (amended): the normalizer is idempotent on every input whose
normalized form does not itself begin with `'_'` or `'-'`; in general a
second application strips at most one further leading `'_'` or `'-'`. -/
theorem claim_C3_theorem (s : List Char)
    (h : leadingKept (normalizedServiceName s) = true) :
    normalizedServiceName (normalizedServiceName s) = normalizedServiceName s := by
  have hlow : ∀ c ∈ normalizedServiceName s, isLowClass c = true :=
    fun c hc => isLowClass_of_mem_normalized hc
  generalize hl : normalizedServiceName s = l at hlow h ⊢
  unfold normalizedServiceName replaceRuns
  rw [replaceRunsAux_id_of_class (fun c hc => isClassChar_of_low (hlow c hc)) false,
    map_toLower_id_of_low hlow]
  exact stripLeading_of_kept h

/-- C3 witness: concrete instantiation of the amended idempotence claim. -/
theorem claim_C3_witness :
    leadingKept (normalizedServiceName "Ab c".toList) = true ∧
      normalizedServiceName (normalizedServiceName "Ab c".toList) =
        normalizedServiceName "Ab c".toList :=
  ⟨by decide, claim_C3_theorem _ (by decide)⟩

/-! String scanning primitives shared by the mention extraction, the
already-migrated marker test, and the patch application. -/

/-- Does the pattern occur as a leading block of the string? -/
def matchesAt : List Char → List Char → Bool
  | [], _ => true
  | _ :: _, [] => false
  | p :: ps, c :: cs => p == c && matchesAt ps cs

/-- Does the pattern occur anywhere in the string? -/
def containsSub (pat : List Char) : List Char → Bool
  | [] => matchesAt pat []
  | c :: rest => matchesAt pat (c :: rest) || containsSub pat rest

/-- Model of JS `s.replace(pat, rep)` with a plain-string pattern: replace the
first (leftmost) occurrence of `pat` by `rep`; if `pat` does not occur the
string is returned unchanged. -/
def replaceFirst (pat rep : List Char) : List Char → List Char
  | [] => if matchesAt pat [] then rep else []
  | c :: cs =>
    if matchesAt pat (c :: cs) then rep ++ (c :: cs).drop pat.length
    else c :: replaceFirst pat rep cs

/-- Literal part of the routing-mention regex `/@pagerduty-([^\s]+)/g`. -/
def pdPat : List Char := "@pagerduty-".toList

/-- Literal part of the completed-migration marker regex
`/@webhook-rootly-[^\s]+/`. -/
def whPat : List Char := "@webhook-rootly-".toList

/-- Does `/@webhook-rootly-[^\s]+/` match at the head of the string: the
literal followed by at least one non-whitespace character? -/
def markerAt (s : List Char) : Bool :=
  matchesAt whPat s &&
    match s.drop whPat.length with
    | [] => false
    | c :: _ => !(isSpaceChar c)

/-- Model of `monitor.message.match(/@webhook-rootly-[^\s]+/) !== null`
(src/unnamed/part_000 line 301). -/
def hasMarker : List Char → Bool
  | [] => false
  | c :: rest => markerAt (c :: rest) || hasMarker rest

/-- Model of `monitor.message.match(/@pagerduty-([^\s]+)/g)`: every
non-overlapping match of the literal `@pagerduty-` followed by a maximal
nonempty run of non-whitespace characters, scanning left to right and
resuming after each match.  The fuel is the string length, which strictly
bounds the number of scanning steps. -/
def extractMentionsAux : Nat → List Char → List (List Char)
  | 0, _ => []
  | _, [] => []
  | fuel + 1, c :: rest =>
    if matchesAt pdPat (c :: rest) then
      let tail := (c :: rest).drop pdPat.length
      let frag := tail.takeWhile (fun d => !(isSpaceChar d))
      if frag.isEmpty then extractMentionsAux fuel rest
      else (pdPat ++ frag) :: extractMentionsAux fuel (tail.drop frag.length)
    else extractMentionsAux fuel rest

/-- All routing mentions of a message, in order. -/
def extractMentions (s : List Char) : List (List Char) :=
  extractMentionsAux s.length s

/-- Model of `notification.split('@pagerduty-')[1]`: the text of the fragment
up to (but not including) the next occurrence of the separator. -/
def segmentBeforePat : List Char → List Char
  | [] => []
  | c :: rest =>
    if matchesAt pdPat (c :: rest) then [] else c :: segmentBeforePat rest

/-- Service-name fragment embedded in a mention: the code drops the leading
`@pagerduty-` via `split('@pagerduty-')[1]` (src/unnamed/part_000 line 312). -/
def mentionFrag (mention : List Char) : List Char :=
  segmentBeforePat (mention.drop pdPat.length)

/-! Data model: the remote entities the script manipulates, and the run
environment (caches, flags and remote behaviour) threaded through it. -/

/-- PagerDuty service as cached by `fetchAndCachePagerdutyServices`. -/
structure PDService where
  id : String
  name : List Char
deriving Repr, DecidableEq

/-- Rootly service as cached by `fetchAndCacheRootlyServices`
(`attributes.pagerduty_id` may be null). -/
structure RootlyService where
  id : String
  pagerduty_id : Option String
deriving Repr, DecidableEq

/-- Datadog monitor: the fields the script reads (`id`, `message`, `type`,
`options.synthetics_check_id`). -/
structure Monitor where
  id : Nat
  message : List Char
  type : List Char
  synthetics_check_id : Option String
deriving Repr, DecidableEq

/-- Outbound HTTP calls the script can make while processing a monitor. -/
inductive Call where
  /-- POST `/integration/webhooks/configuration/webhooks` with the given
  webhook name and Rootly notification-target service id. -/
  | webhookPost (name : List Char) (serviceId : String)
  /-- GET `/monitor/monitorId` (a read, not a write). -/
  | monitorGet (id : Nat)
  /-- PUT `/monitor/monitorId` carrying the monitor with the given message. -/
  | monitorPut (id : Nat) (message : List Char)
  /-- PATCH `/synthetics/tests/checkId` replacing the message. -/
  | syntheticsPatch (checkId : String) (message : List Char)
deriving Repr, DecidableEq

/-- Is the call a write (webhook creation POST, monitor PUT, or synthetics
PATCH)? -/
def isWriteCall : Call → Bool
  | .webhookPost _ _ => true
  | .monitorGet _ => false
  | .monitorPut _ _ => true
  | .syntheticsPatch _ _ => true

/-- Is the call a monitor write (PUT or synthetics PATCH)? -/
def isMonitorWrite : Call → Bool
  | .monitorPut _ _ => true
  | .syntheticsPatch _ _ => true
  | _ => false

/-- Entries pushed onto the global `results` array. -/
inductive Outcome where
  /-- `{monitor, old: null, new: null, error: "Skipping monitor ..."}`
  (line 303). -/
  | skip (monId : Nat)
  /-- `{monitor, old: null, new: null, error: "No PagerDuty notifications
  found ..."}` (line 336). -/
  | noMentions (monId : Nat)
  /-- `{monitor, old, new, error: null}` (line 320). -/
  | mentionSuccess (monId : Nat) (old new : List Char)
  /-- `{monitor, old, error}` (lines 323 and 327). -/
  | mentionError (monId : Nat) (old : List Char) (error : List Char)
  /-- `{monitor, oldMessage, newMessage}` (line 266). -/
  | updateRecord (monId : Nat) (oldMessage newMessage : List Char)
deriving Repr, DecidableEq

/-- Is the outcome a per-mention success record? -/
def isSuccessOutcome : Outcome → Bool
  | .mentionSuccess _ _ _ => true
  | _ => false

/-- Remote answer to the webhook-creation POST, as observed through the
`catch` block of `createDatadogWebhook`: either the call succeeds, or axios
raises an error carrying an HTTP response whose body is `{errors: [...]}`,
or it raises an error with no response at all (timeout / network failure). -/
inductive WebhookResp where
  | success
  | httpError (errors : List String)
  | noResponse
deriving Repr, DecidableEq

/-- Run environment: the two directory caches built at startup, the DRY_RUN
flag, and the behaviour of the two remote endpoints touched while processing
a single monitor. -/
structure Env where
  pdCache : List PDService
  rootlyCache : List RootlyService
  dryRun : Bool
  webhookResp : List Char → WebhookResp
  fetchMonitor : Nat → Option Monitor

/-- Same environment with the DRY_RUN flag replaced. -/
def setDry (e : Env) (b : Bool) : Env :=
  ⟨e.pdCache, e.rootlyCache, b, e.webhookResp, e.fetchMonitor⟩

/-! Operations (src/unnamed/part_000 lines 174-342). -/

/-- Model of `getPagerdutyServiceId` (lines 174-184): linear scan of the
cache for the first service whose normalized name equals the normalized
lookup name. -/
def getPagerdutyServiceId (cache : List PDService) (serviceName : List Char) :
    Option String :=
  match cache.find? (fun s => normalizedServiceName s.name = normalizedServiceName serviceName) with
  | some s => some s.id
  | none => none

/-- Model of `fetchRootlyServiceId` (lines 186-196): linear scan of the
Rootly cache for the first service whose `attributes.pagerduty_id` equals
the given PagerDuty id. -/
def fetchRootlyServiceId (cache : List RootlyService) (pagerdutyId : String) :
    Option String :=
  match cache.find? (fun s => s.pagerduty_id = some pagerdutyId) with
  | some s => some s.id
  | none => none

/-- Name under which the webhook is created: `rootly-normalized-name`. -/
def webhookName (serviceName : List Char) : List Char :=
  "rootly-".toList ++ normalizedServiceName serviceName

/-- New mention appended after a resolved routing mention:
`@webhook-rootly-normalized-name` (line 319). -/
def webhookMention (serviceName : List Char) : List Char :=
  whPat ++ normalizedServiceName serviceName

/-- Model of `createDatadogWebhook` (lines 198-248).  Returns the calls
attempted, whether a `console.error` was emitted, and whether the function
raised.  In dry-run mode the network call is skipped entirely.  Otherwise the
POST is attempted; on success or on an HTTP error whose first body error is
`"Webhook already exists"` the function just logs; on any other HTTP error it
logs via `console.error` and returns normally; on an error with NO response
(e.g. a timeout) the catch block itself raises a TypeError while evaluating
`error.response.data.errors[0]`, which propagates to the caller. -/
def createDatadogWebhook (dryRun : Bool) (resp : WebhookResp)
    (serviceName : List Char) (serviceId : String) :
    List Call × Bool × Bool :=
  if dryRun then ([], false, false)
  else
    let post := Call.webhookPost (webhookName serviceName) serviceId
    match resp with
    | .success => ([post], false, false)
    | .httpError errs =>
      if errs.head? = some "Webhook already exists" then ([post], false, false)
      else ([post], true, false)
    | .noResponse => ([post], false, true)

/-- Patch application of `updateDatadogMonitor` (lines 262-264): for each
`(oldNotification, newNotification)` pair, in order, replace the first
occurrence of the old mention by itself followed by a space and the new
mention. -/
def applyPatches (msg : List Char) (patches : List (List Char × List Char)) :
    List Char :=
  patches.foldl (fun m p => replaceFirst p.1 (p.1 ++ ' ' :: p.2) m) msg

/-- Type-specific persistence path (lines 274-288): synthetics monitors go
through the Synthetics PATCH endpoint, everything else through the monitor
PUT endpoint. -/
def monitorWriteCall (mon : Monitor) (monId : Nat) (msg : List Char) : Call :=
  if mon.type = "synthetics alert".toList then
    match mon.synthetics_check_id with
    | some cid => Call.syntheticsPatch cid msg
    | none => Call.monitorPut monId msg
  else Call.monitorPut monId msg

/-- Model of `updateDatadogMonitor` (lines 250-297): re-fetch the monitor by
id, apply all patches to its message, push the `{monitor, oldMessage,
newMessage}` record, then (unless DRY_RUN) persist through the type-specific
path.  A falsy fetch result only logs. -/
def updateDatadogMonitor (env : Env) (monId : Nat)
    (patches : List (List Char × List Char)) : List Call × List Outcome :=
  match env.fetchMonitor monId with
  | none => ([Call.monitorGet monId], [])
  | some mon =>
    let newMsg := applyPatches mon.message patches
    if env.dryRun then
      ([Call.monitorGet monId], [Outcome.updateRecord monId mon.message newMsg])
    else
      ([Call.monitorGet monId, monitorWriteCall mon monId newMsg],
        [Outcome.updateRecord monId mon.message newMsg])

/-- Result of processing one mention inside `processMonitor`: calls made,
outcomes pushed, the pending patch (if the mention resolved), and whether
the mention's async callback raised. -/
structure MentionRes where
  calls : List Call
  outs : List Outcome
  patch : Option (List Char × List Char)
  threw : Bool
deriving Repr, DecidableEq

/-- Per-mention error text (line 327). -/
def pdNotFoundMsg (serviceName : List Char) : List Char :=
  "PagerDuty ID not found for service name: ".toList ++ serviceName

/-- Per-mention error text (line 323). -/
def rootlyNotFoundMsg (pagerdutyId : String) : List Char :=
  "Rootly ID not found for PagerDuty ID: ".toList ++ pagerdutyId.toList

/-- Model of the per-mention callback of `processMonitor` (lines 311-330):
resolve the fragment through the PagerDuty cache then the Rootly cache,
recording an error outcome on either miss; on success provision the webhook,
record a success outcome and return the pending patch.  If webhook
provisioning raises, the callback raises before pushing its success
outcome. -/
def processMention (env : Env) (monId : Nat) (mention : List Char) : MentionRes :=
  let serviceName := mentionFrag mention
  match getPagerdutyServiceId env.pdCache serviceName with
  | none => ⟨[], [Outcome.mentionError monId mention (pdNotFoundMsg serviceName)], none, false⟩
  | some pid =>
    match fetchRootlyServiceId env.rootlyCache pid with
    | none => ⟨[], [Outcome.mentionError monId mention (rootlyNotFoundMsg pid)], none, false⟩
    | some rid =>
      let w := createDatadogWebhook env.dryRun (env.webhookResp serviceName) serviceName rid
      if w.2.2 then ⟨w.1, [], none, true⟩
      else
        let newN := webhookMention serviceName
        ⟨w.1, [Outcome.mentionSuccess monId mention newN], some (mention, newN), false⟩

/-- Model of `processMonitor` (lines 299-342): skip (with one outcome) if the
message already contains the completed-migration marker; record a no-op
outcome if it contains no routing mention; otherwise process every mention,
and if any patches were collected and no callback raised, call the rule
rewriter once with the full patch list.  If some callback raised, the
`Promise.all` rejection is caught by the per-monitor handler: the remaining
callbacks' outcomes still land in `results`, but the rewrite never runs. -/
def processMonitor (env : Env) (mon : Monitor) : List Call × List Outcome :=
  if hasMarker mon.message then ([], [Outcome.skip mon.id])
  else
    match extractMentions mon.message with
    | [] => ([], [Outcome.noMentions mon.id])
    | m :: ms =>
      let rs := (m :: ms).map (processMention env mon.id)
      let calls := (rs.map MentionRes.calls).flatten
      let outs := (rs.map MentionRes.outs).flatten
      let patches := rs.filterMap MentionRes.patch
      if rs.any MentionRes.threw then (calls, outs)
      else if patches.isEmpty then (calls, outs)
      else
        let u := updateDatadogMonitor env mon.id patches
        (calls ++ u.1, outs ++ u.2)

/-! Pagination (lines 56-168): all three fetchers share the same loop shape:
request successive pages, stop on an empty page, `break` out of the loop on a
request error and keep what was accumulated so far. -/

/-- Remote answer to one page request. -/
inductive PageResult (α : Type) where
  | ok (items : List α)
  | fail
deriving Repr, DecidableEq

/-- A page that keeps the loop going: a successful, nonempty page. -/
def isFullPage {α : Type} : PageResult α → Bool
  | .ok items => !items.isEmpty
  | .fail => false

/-- Items contributed by a page. -/
def pageItems {α : Type} : PageResult α → List α
  | .ok items => items
  | .fail => []

/-- Shared pagination loop: accumulate pages in order until a page errors or
returns zero items.  The list argument is the sequence of successive remote
answers; an exhausted sequence stands for the remote answering with empty
pages from then on. -/
def paginateAux {α : Type} (acc : List α) : List (PageResult α) → List α
  | [] => acc
  | .fail :: _ => acc
  | .ok items :: rest =>
    if items.isEmpty then acc else paginateAux (acc ++ items) rest

/-- Model of `fetchAndCachePagerdutyServices` (lines 56-92). -/
def fetchAndCachePagerdutyServices (pages : List (PageResult PDService)) :
    List PDService :=
  paginateAux [] pages

/-- Model of `fetchAndCacheRootlyServices` (lines 94-131). -/
def fetchAndCacheRootlyServices (pages : List (PageResult RootlyService)) :
    List RootlyService :=
  paginateAux [] pages

/-- Model of `fetchDatadogMonitors` (lines 133-168). -/
def fetchDatadogMonitors (pages : List (PageResult Monitor)) : List Monitor :=
  paginateAux [] pages

/-! Startup validation (lines 5-12 of both variants). -/

/-- Required environment variables of the current variant
(src/unnamed/part_000 line 6) - note `ROOTLY_ALERT_SOURCE_SECRET` is in the
list. -/
def requiredEnvVars : List String :=
  ["DATADOG_API_KEY", "DATADOG_APP_KEY", "PAGERDUTY_API_TOKEN",
    "ROOTLY_API_TOKEN", "ROOTLY_ALERT_SOURCE_SECRET"]

/-- Required environment variables of the legacy variant (src/index.js
line 5): no shared secret. -/
def requiredEnvVarsLegacy : List String :=
  ["DATADOG_API_KEY", "DATADOG_APP_KEY", "PAGERDUTY_API_TOKEN", "ROOTLY_API_TOKEN"]

/-- JS truthiness of `!process.env[envVar]`: the variable is missing or set
to the empty string. -/
def missingVar (get : String → Option String) (v : String) : Bool :=
  match get v with
  | none => true
  | some s => s.isEmpty

/-- Startup fate of the process. -/
inductive StartupResult where
  | exited (code : Nat)
  | proceeded
deriving Repr, DecidableEq

/-- Model of the `requiredEnvVars.forEach` validation loop: `process.exit(1)`
as soon as a required variable is falsy, before any network client is used. -/
def validateStartup (req : List String) (get : String → Option String) :
    StartupResult :=
  if req.any (missingVar get) then .exited 1 else .proceeded

/-- Startup of the current variant (src/unnamed/part_000). -/
def startupCurrent (get : String → Option String) : StartupResult :=
  validateStartup requiredEnvVars get

/-- Startup of the legacy variant (src/index.js). -/
def startupLegacy (get : String → Option String) : StartupResult :=
  validateStartup requiredEnvVarsLegacy get

/-- Calls the whole program performs: none at all when startup validation
exits, otherwise whatever the run after validation performs.  The validation
loop sits at module top level, before any network client is invoked. -/
def programCalls (get : String → Option String) (runCalls : List Call) :
    List Call :=
  match startupCurrent get with
  | .exited _ => []
  | .proceeded => runCalls

/-! Lemmas about the string scanning primitives. -/

theorem matchesAt_append_self (p t : List Char) : matchesAt p (p ++ t) = true := by
  induction p with
  | nil => rfl
  | cons c ps ih => simp [matchesAt, ih]

theorem matchesAt_self (p : List Char) : matchesAt p p = true := by
  have h := matchesAt_append_self p []
  simpa using h

theorem containsSub_append_self (pre pat : List Char) :
    containsSub pat (pre ++ pat) = true := by
  induction pre with
  | nil =>
    cases pat with
    | nil => rfl
    | cons c cs => simp [containsSub, matchesAt_self]
  | cons c pre' ih => simp [containsSub, ih]

theorem replaceFirst_head {pat : List Char} (hpat : pat ≠ []) (rep suf : List Char) :
    replaceFirst pat rep (pat ++ suf) = rep ++ suf := by
  cases pat with
  | nil => exact absurd rfl hpat
  | cons c ps =>
    simp only [List.cons_append, replaceFirst]
    rw [if_pos]
    · congr 1
      simp only [List.length_cons, List.drop_succ_cons]
      exact List.drop_left ps suf
    · have h := matchesAt_append_self (c :: ps) suf
      simpa using h

theorem replaceFirst_not_head {pat : List Char} {c : Char} {cs : List Char}
    (h : matchesAt pat (c :: cs) = false) (rep : List Char) :
    replaceFirst pat rep (c :: cs) = c :: replaceFirst pat rep cs := by
  simp [replaceFirst, h]

/-- First-occurrence replacement inserts exactly at the designated site when
the pattern matches nowhere strictly earlier. -/
theorem replaceFirst_insert {pat : List Char} (hpat : pat ≠ []) (rep : List Char) :
    ∀ pre suf, (∀ i, i < pre.length → matchesAt pat ((pre ++ pat ++ suf).drop i) = false) →
      replaceFirst pat rep (pre ++ pat ++ suf) = pre ++ rep ++ suf := by
  intro pre
  induction pre with
  | nil =>
    intro suf _
    simpa using replaceFirst_head hpat rep suf
  | cons c pre' ih =>
    intro suf h
    have h0 := h 0 (Nat.succ_pos _)
    rw [List.drop_zero] at h0
    simp only [List.cons_append] at h0 ⊢
    rw [replaceFirst_not_head h0 rep]
    have hrec := ih suf (fun i hi => by
      have hs := h (i + 1) (Nat.succ_lt_succ hi)
      simpa using hs)
    rw [hrec]

theorem isMonitorWrite_monitorWriteCall (mon : Monitor) (monId : Nat) (msg : List Char) :
    isMonitorWrite (monitorWriteCall mon monId msg) = true := by
  unfold monitorWriteCall
  by_cases h : mon.type = "synthetics alert".toList
  · rw [if_pos h]
    cases mon.synthetics_check_id <;> rfl
  · rw [if_neg h]; rfl

/-! Per-mention processing lemmas. -/

theorem processMention_pdMiss {env : Env} {monId : Nat} {m : List Char}
    (hp : getPagerdutyServiceId env.pdCache (mentionFrag m) = none) :
    processMention env monId m =
      ⟨[], [Outcome.mentionError monId m (pdNotFoundMsg (mentionFrag m))], none, false⟩ := by
  simp [processMention, hp]

theorem processMention_rootlyMiss {env : Env} {monId : Nat} {m : List Char} {pid : String}
    (hp : getPagerdutyServiceId env.pdCache (mentionFrag m) = some pid)
    (hr : fetchRootlyServiceId env.rootlyCache pid = none) :
    processMention env monId m =
      ⟨[], [Outcome.mentionError monId m (rootlyNotFoundMsg pid)], none, false⟩ := by
  simp [processMention, hp, hr]

theorem processMention_success {env : Env} {monId : Nat} {m : List Char} {pid rid : String}
    (hp : getPagerdutyServiceId env.pdCache (mentionFrag m) = some pid)
    (hr : fetchRootlyServiceId env.rootlyCache pid = some rid)
    (hd : env.dryRun = false)
    (hw : env.webhookResp (mentionFrag m) ≠ .noResponse) :
    processMention env monId m =
      ⟨[Call.webhookPost (webhookName (mentionFrag m)) rid],
        [Outcome.mentionSuccess monId m (webhookMention (mentionFrag m))],
        some (m, webhookMention (mentionFrag m)), false⟩ := by
  simp only [processMention, hp, hr]
  cases hresp : env.webhookResp (mentionFrag m) with
  | success => simp [createDatadogWebhook, hd]
  | httpError errs =>
    by_cases he : errs.head? = some "Webhook already exists" <;>
      simp [createDatadogWebhook, hd, he]
  | noResponse => exact absurd hresp hw

theorem processMention_raises {env : Env} {monId : Nat} {m : List Char} {pid rid : String}
    (hp : getPagerdutyServiceId env.pdCache (mentionFrag m) = some pid)
    (hr : fetchRootlyServiceId env.rootlyCache pid = some rid)
    (hd : env.dryRun = false)
    (hw : env.webhookResp (mentionFrag m) = .noResponse) :
    processMention env monId m =
      ⟨[Call.webhookPost (webhookName (mentionFrag m)) rid], [], none, true⟩ := by
  simp [processMention, hp, hr, hw, createDatadogWebhook, hd]

/-! Pagination lemmas. -/

theorem paginateAux_full {α : Type} (pref : List (PageResult α))
    (h : pref.all isFullPage = true) (acc : List α) (tail : List (PageResult α)) :
    paginateAux acc (pref ++ tail) = paginateAux (acc ++ (pref.map pageItems).flatten) tail := by
  induction pref generalizing acc with
  | nil => simp
  | cons p ps ih =>
    rw [List.all_cons, Bool.and_eq_true] at h
    cases p with
    | ok items =>
      have hne : items.isEmpty = false := by
        have h1 := h.1
        simp only [isFullPage, Bool.not_eq_true'] at h1
        exact h1
      simp only [List.cons_append, paginateAux, hne, if_neg Bool.false_ne_true,
        List.append_eq]
      rw [ih h.2]
      simp [List.append_assoc, pageItems]
    | fail => simp [isFullPage] at h

theorem paginateAux_stop {α : Type} (acc : List α) {stop : PageResult α}
    (hs : isFullPage stop = false) (rest : List (PageResult α)) :
    paginateAux acc (stop :: rest) = acc := by
  cases stop with
  | fail => rfl
  | ok items =>
    simp only [isFullPage, Bool.not_eq_false'] at hs
    simp [paginateAux, hs]

theorem paginate_closed {α : Type} (pref : List (PageResult α))
    (h : pref.all isFullPage = true) (tail : List (PageResult α))
    (htail : ∀ acc : List α, paginateAux acc tail = acc) :
    paginateAux [] (pref ++ tail) = (pref.map pageItems).flatten := by
  rw [paginateAux_full pref h [] tail, htail]
  simp

/-! Witness fixtures: a small concrete run environment. -/

/-- Concrete PagerDuty cache used by witnesses. -/
def pdCacheW : List PDService :=
  [⟨"P1", "Checkout".toList⟩, ⟨"P2", "[Payments] Team".toList⟩]

/-- Concrete Rootly cache used by witnesses. -/
def rootlyCacheW : List RootlyService :=
  [⟨"R1", some "P1"⟩, ⟨"R2", some "P2"⟩]

/-- Concrete environment whose monitor store holds exactly the given
monitor. -/
def mkEnv (dry : Bool) (resp : WebhookResp) (mon : Monitor) : Env :=
  ⟨pdCacheW, rootlyCacheW, dry, fun _ => resp,
    fun i => if i = mon.id then some mon else none⟩

/-- Monitor whose message already carries the completed-migration marker. -/
def monC4 : Monitor :=
  ⟨3, "done @webhook-rootly-checkout here".toList, "query alert".toList, none⟩

/-- Monitor with one unresolvable and one resolvable routing mention. -/
def monC5 : Monitor :=
  ⟨4, "a @pagerduty-ghost b @pagerduty-checkout c".toList, "query alert".toList, none⟩

end Migrator

namespace Migrator

/-- C4: a monitor whose message already contains a completed-migration marker
(`@webhook-rootly-` followed by a non-space character) is skipped: no
outbound call of any kind, exactly one skip outcome, no further
processing. -/
theorem claim_C4_theorem (env : Env) (mon : Monitor)
    (h : hasMarker mon.message = true) :
    processMonitor env mon = ([], [Outcome.skip mon.id]) := by
  simp [processMonitor, h]

/-- C4 witness: the skip claim at a concrete already-migrated monitor. -/
theorem claim_C4_witness :
    hasMarker monC4.message = true ∧
      processMonitor (mkEnv false .success monC4) monC4 = ([], [Outcome.skip 3]) :=
  ⟨by decide, claim_C4_theorem _ _ (by decide)⟩

/-- C5: a mention whose fragment resolves to no PagerDuty service produces
exactly one error outcome containing the unresolved fragment, no patch and
no write for that mention, and the remaining mentions of the rule are still
processed (here: the second mention still produces its webhook call, its
success outcome, and the single batched rule rewrite patched only with the
second mention). -/
theorem claim_C5_theorem (env : Env) (mon : Monitor) (m1 m2 : List Char)
    (p2 r2 : String)
    (hnm : hasMarker mon.message = false)
    (hex : extractMentions mon.message = [m1, m2])
    (hp1 : getPagerdutyServiceId env.pdCache (mentionFrag m1) = none)
    (hp2 : getPagerdutyServiceId env.pdCache (mentionFrag m2) = some p2)
    (hr2 : fetchRootlyServiceId env.rootlyCache p2 = some r2)
    (hd : env.dryRun = false)
    (hw2 : env.webhookResp (mentionFrag m2) ≠ WebhookResp.noResponse)
    (hf : env.fetchMonitor mon.id = some mon) :
    processMonitor env mon =
      ([Call.webhookPost (webhookName (mentionFrag m2)) r2, Call.monitorGet mon.id,
        monitorWriteCall mon mon.id
          (applyPatches mon.message [(m2, webhookMention (mentionFrag m2))])],
       [Outcome.mentionError mon.id m1 (pdNotFoundMsg (mentionFrag m1)),
        Outcome.mentionSuccess mon.id m2 (webhookMention (mentionFrag m2)),
        Outcome.updateRecord mon.id mon.message
          (applyPatches mon.message [(m2, webhookMention (mentionFrag m2))])]) ∧
      containsSub (mentionFrag m1) (pdNotFoundMsg (mentionFrag m1)) = true := by
  constructor
  · simp only [processMonitor, hnm, Bool.false_eq_true, if_false, hex,
      List.map_cons, List.map_nil,
      processMention_pdMiss hp1, processMention_success hp2 hr2 hd hw2,
      List.flatten_cons, List.flatten_nil, List.append_nil, List.nil_append,
      List.filterMap_cons, List.filterMap_nil,
      List.any_cons, List.any_nil, Bool.or_false, Bool.false_or,
      List.isEmpty, updateDatadogMonitor, hf, hd]
    simp
  · simp only [pdNotFoundMsg]
    exact containsSub_append_self _ _

/-- C5 witness: concrete unresolved-plus-resolved pair of mentions. -/
theorem claim_C5_witness :
    processMonitor (mkEnv false .success monC5) monC5 =
      ([Call.webhookPost (webhookName (mentionFrag "@pagerduty-checkout".toList)) "R1",
        Call.monitorGet 4,
        monitorWriteCall monC5 4
          (applyPatches monC5.message
            [("@pagerduty-checkout".toList,
              webhookMention (mentionFrag "@pagerduty-checkout".toList))])],
       [Outcome.mentionError 4 "@pagerduty-ghost".toList
          (pdNotFoundMsg (mentionFrag "@pagerduty-ghost".toList)),
        Outcome.mentionSuccess 4 "@pagerduty-checkout".toList
          (webhookMention (mentionFrag "@pagerduty-checkout".toList)),
        Outcome.updateRecord 4 monC5.message
          (applyPatches monC5.message
            [("@pagerduty-checkout".toList,
              webhookMention (mentionFrag "@pagerduty-checkout".toList))])]) ∧
      containsSub (mentionFrag "@pagerduty-ghost".toList)
        (pdNotFoundMsg (mentionFrag "@pagerduty-ghost".toList)) = true :=
  claim_C5_theorem (mkEnv false .success monC5) monC5 "@pagerduty-ghost".toList
    "@pagerduty-checkout".toList "P1" "R1" (by decide) (by decide) (by decide)
    (by decide) (by decide) rfl (by decide) (by decide)

/-- C7: every paginated fetcher accumulates full pages in order into one
list; it stops on the first empty page, and a page-fetch failure ends
pagination early, yielding exactly the items of the pages fetched before the
failure, with no exception escaping. -/
theorem claim_C7_theorem
    (pd rest1 : List (PageResult PDService)) (ro rest2 : List (PageResult RootlyService))
    (dm rest3 : List (PageResult Monitor))
    (h1 : pd.all isFullPage = true) (h2 : ro.all isFullPage = true)
    (h3 : dm.all isFullPage = true) :
    (fetchAndCachePagerdutyServices pd = (pd.map pageItems).flatten ∧
      fetchAndCachePagerdutyServices (pd ++ PageResult.ok [] :: rest1) =
        (pd.map pageItems).flatten ∧
      fetchAndCachePagerdutyServices (pd ++ PageResult.fail :: rest1) =
        (pd.map pageItems).flatten) ∧
    (fetchAndCacheRootlyServices ro = (ro.map pageItems).flatten ∧
      fetchAndCacheRootlyServices (ro ++ PageResult.ok [] :: rest2) =
        (ro.map pageItems).flatten ∧
      fetchAndCacheRootlyServices (ro ++ PageResult.fail :: rest2) =
        (ro.map pageItems).flatten) ∧
    (fetchDatadogMonitors dm = (dm.map pageItems).flatten ∧
      fetchDatadogMonitors (dm ++ PageResult.ok [] :: rest3) =
        (dm.map pageItems).flatten ∧
      fetchDatadogMonitors (dm ++ PageResult.fail :: rest3) =
        (dm.map pageItems).flatten) := by
  refine ⟨⟨?_, ?_, ?_⟩, ⟨?_, ?_, ?_⟩, ⟨?_, ?_, ?_⟩⟩
  · have h := paginate_closed pd h1 [] (fun _ => rfl)
    simpa [fetchAndCachePagerdutyServices] using h
  · exact paginate_closed pd h1 (PageResult.ok [] :: rest1)
      (fun acc => paginateAux_stop acc (by rfl) rest1)
  · exact paginate_closed pd h1 (PageResult.fail :: rest1)
      (fun acc => paginateAux_stop acc (by rfl) rest1)
  · have h := paginate_closed ro h2 [] (fun _ => rfl)
    simpa [fetchAndCacheRootlyServices] using h
  · exact paginate_closed ro h2 (PageResult.ok [] :: rest2)
      (fun acc => paginateAux_stop acc (by rfl) rest2)
  · exact paginate_closed ro h2 (PageResult.fail :: rest2)
      (fun acc => paginateAux_stop acc (by rfl) rest2)
  · have h := paginate_closed dm h3 [] (fun _ => rfl)
    simpa [fetchDatadogMonitors] using h
  · exact paginate_closed dm h3 (PageResult.ok [] :: rest3)
      (fun acc => paginateAux_stop acc (by rfl) rest3)
  · exact paginate_closed dm h3 (PageResult.fail :: rest3)
      (fun acc => paginateAux_stop acc (by rfl) rest3)

/-- C7 witness: a failing second page truncates the PagerDuty directory to
the first page's items without aborting. -/
theorem claim_C7_witness :
    fetchAndCachePagerdutyServices
      [PageResult.ok [⟨"P1", "a".toList⟩], PageResult.fail,
        PageResult.ok [⟨"P2", "b".toList⟩]] = [⟨"P1", "a".toList⟩] := by
  have h := claim_C7_theorem [PageResult.ok [⟨"P1", "a".toList⟩]]
    [PageResult.ok [⟨"P2", "b".toList⟩]] [] [] [] [] (by decide) (by decide) (by decide)
  simpa using h.1.2.2

/-- Environment providing every credential except the shared secret. -/
def getNoSecret : String → Option String :=
  fun v => if v = "ROOTLY_ALERT_SOURCE_SECRET" then none else some "configured"

/-- C9: the current variant (src/unnamed/part_000 line 6) lists
`ROOTLY_ALERT_SOURCE_SECRET` among the required variables, so a run does NOT
proceed when only the shared secret is absent; the legacy variant
(src/index.js line 5) does proceed. -/
theorem claim_C9_counterexample :
    startupCurrent getNoSecret = StartupResult.exited 1 ∧
      startupLegacy getNoSecret = StartupResult.proceeded := by
  constructor
  · decide
  · decide

/-- C9 (amended): if any required variable - the three services' credentials
and, in the current variant, the alert-source shared secret - is missing or
empty, the process exits immediately with code 1 and performs no network
call at all. -/
theorem claim_C9_theorem (get : String → Option String) (v : String)
    (hv : v ∈ requiredEnvVars) (hm : missingVar get v = true) :
    startupCurrent get = StartupResult.exited 1 ∧
      ∀ cs, programCalls get cs = [] := by
  have ha : requiredEnvVars.any (missingVar get) = true :=
    List.any_eq_true.mpr ⟨v, hv, hm⟩
  refine ⟨?_, ?_⟩
  · simp [startupCurrent, validateStartup, ha]
  · intro cs
    simp [programCalls, startupCurrent, validateStartup, ha]

/-- C9 witness: an empty environment exits before any call. -/
theorem claim_C9_witness :
    startupCurrent (fun _ => none) = StartupResult.exited 1 ∧
      programCalls (fun _ => none) [Call.monitorGet 0] = [] :=
  ⟨(claim_C9_theorem (fun _ => none) "DATADOG_API_KEY" (by decide) rfl).1,
    (claim_C9_theorem (fun _ => none) "DATADOG_API_KEY" (by decide) rfl).2 _⟩

/-- C1 (amended): on a monitor with two distinct resolvable mentions -
provided the rule is unmigrated, the re-fetch is consistent, both
endpoint-provisioning calls return responses, and neither mention's text
occurs in the (progressively patched) message strictly before its own
position - processing issues the two webhook posts, then exactly one
fetch-modify-write whose message carries each new webhook mention
immediately after its respective original mention, and records exactly two
success outcomes. -/
theorem claim_C1_theorem (env : Env) (mon : Monitor)
    (m1 m2 pre mid suf : List Char) (p1 r1 p2 r2 : String)
    (hnm : hasMarker mon.message = false)
    (hex : extractMentions mon.message = [m1, m2])
    (hne : m1 ≠ m2) (hm1 : m1 ≠ []) (hm2 : m2 ≠ [])
    (hp1 : getPagerdutyServiceId env.pdCache (mentionFrag m1) = some p1)
    (hr1 : fetchRootlyServiceId env.rootlyCache p1 = some r1)
    (hp2 : getPagerdutyServiceId env.pdCache (mentionFrag m2) = some p2)
    (hr2 : fetchRootlyServiceId env.rootlyCache p2 = some r2)
    (hd : env.dryRun = false)
    (hw1 : env.webhookResp (mentionFrag m1) ≠ WebhookResp.noResponse)
    (hw2 : env.webhookResp (mentionFrag m2) ≠ WebhookResp.noResponse)
    (hf : env.fetchMonitor mon.id = some mon)
    (hmsg : mon.message = pre ++ m1 ++ (mid ++ m2 ++ suf))
    (hocc1 : ∀ i, i < pre.length →
      matchesAt m1 ((pre ++ m1 ++ (mid ++ m2 ++ suf)).drop i) = false)
    (hocc2 : ∀ i, i < ((pre ++ (m1 ++ ' ' :: webhookMention (mentionFrag m1))) ++ mid).length →
      matchesAt m2 ((((pre ++ (m1 ++ ' ' :: webhookMention (mentionFrag m1))) ++ mid) ++ m2 ++ suf).drop i) = false) :
    processMonitor env mon =
      ([Call.webhookPost (webhookName (mentionFrag m1)) r1,
        Call.webhookPost (webhookName (mentionFrag m2)) r2,
        Call.monitorGet mon.id,
        monitorWriteCall mon mon.id
          ((((pre ++ (m1 ++ ' ' :: webhookMention (mentionFrag m1))) ++ mid) ++
            (m2 ++ ' ' :: webhookMention (mentionFrag m2))) ++ suf)],
       [Outcome.mentionSuccess mon.id m1 (webhookMention (mentionFrag m1)),
        Outcome.mentionSuccess mon.id m2 (webhookMention (mentionFrag m2)),
        Outcome.updateRecord mon.id mon.message
          ((((pre ++ (m1 ++ ' ' :: webhookMention (mentionFrag m1))) ++ mid) ++
            (m2 ++ ' ' :: webhookMention (mentionFrag m2))) ++ suf)]) ∧
      ((processMonitor env mon).1.filter isMonitorWrite).length = 1 ∧
      ((processMonitor env mon).2.filter isSuccessOutcome).length = 2 := by
  have happ : applyPatches mon.message
      [(m1, webhookMention (mentionFrag m1)), (m2, webhookMention (mentionFrag m2))] =
      (((pre ++ (m1 ++ ' ' :: webhookMention (mentionFrag m1))) ++ mid) ++
        (m2 ++ ' ' :: webhookMention (mentionFrag m2))) ++ suf := by
    rw [hmsg]
    unfold applyPatches
    simp only [List.foldl_cons, List.foldl_nil]
    rw [replaceFirst_insert hm1 _ pre (mid ++ m2 ++ suf) hocc1]
    have hassoc : (pre ++ (m1 ++ ' ' :: webhookMention (mentionFrag m1))) ++ (mid ++ m2 ++ suf) =
        ((pre ++ (m1 ++ ' ' :: webhookMention (mentionFrag m1))) ++ mid) ++ m2 ++ suf := by
      simp [List.append_assoc]
    rw [hassoc, replaceFirst_insert hm2 _ _ suf hocc2]
  have hmain : processMonitor env mon =
      ([Call.webhookPost (webhookName (mentionFrag m1)) r1,
        Call.webhookPost (webhookName (mentionFrag m2)) r2,
        Call.monitorGet mon.id,
        monitorWriteCall mon mon.id
          ((((pre ++ (m1 ++ ' ' :: webhookMention (mentionFrag m1))) ++ mid) ++
            (m2 ++ ' ' :: webhookMention (mentionFrag m2))) ++ suf)],
       [Outcome.mentionSuccess mon.id m1 (webhookMention (mentionFrag m1)),
        Outcome.mentionSuccess mon.id m2 (webhookMention (mentionFrag m2)),
        Outcome.updateRecord mon.id mon.message
          ((((pre ++ (m1 ++ ' ' :: webhookMention (mentionFrag m1))) ++ mid) ++
            (m2 ++ ' ' :: webhookMention (mentionFrag m2))) ++ suf)]) := by
    simp only [processMonitor, hnm, Bool.false_eq_true, if_false, hex,
      List.map_cons, List.map_nil,
      processMention_success hp1 hr1 hd hw1, processMention_success hp2 hr2 hd hw2,
      List.flatten_cons, List.flatten_nil, List.append_nil, List.nil_append,
      List.filterMap_cons, List.filterMap_nil,
      List.any_cons, List.any_nil, Bool.or_false, Bool.false_or,
      List.isEmpty, updateDatadogMonitor, hf, hd, happ]
    simp
  refine ⟨hmain, ?_, ?_⟩
  · rw [hmain]
    simp [List.filter_cons, isMonitorWrite_monitorWriteCall,
      show ∀ n sid, isMonitorWrite (Call.webhookPost n sid) = false from fun _ _ => rfl,
      show ∀ i, isMonitorWrite (Call.monitorGet i) = false from fun _ => rfl]
  · rw [hmain]
    simp [List.filter_cons,
      show ∀ i o n, isSuccessOutcome (Outcome.mentionSuccess i o n) = true from fun _ _ _ => rfl,
      show ∀ i o n, isSuccessOutcome (Outcome.updateRecord i o n) = false from fun _ _ _ => rfl]

/-- Monitor with two distinct, disjoint, resolvable routing mentions. -/
def monC1w : Monitor :=
  ⟨1, "alert @pagerduty-checkout and @pagerduty-payments_team now".toList,
    "query alert".toList, none⟩

/-- C1 witness: both batching and batched-message shape at a concrete
two-mention monitor. -/
theorem claim_C1_witness :
    ((processMonitor (mkEnv false .success monC1w) monC1w).1.filter isMonitorWrite).length = 1 ∧
      ((processMonitor (mkEnv false .success monC1w) monC1w).2.filter isSuccessOutcome).length = 2 :=
  (claim_C1_theorem (mkEnv false .success monC1w) monC1w
    "@pagerduty-checkout".toList "@pagerduty-payments_team".toList
    "alert ".toList " and ".toList " now".toList "P1" "R1" "P2" "R2"
    (by decide) (by decide) (by decide) (by decide) (by decide) (by decide)
    (by decide) (by decide) (by decide) rfl (by decide) (by decide) (by decide)
    (by decide) (by decide) (by decide)).2

/-- PagerDuty cache resolving the overlapping mention pair. -/
def pdCacheX : List PDService :=
  [⟨"P8", "foobar".toList⟩, ⟨"P9", "foo".toList⟩]

/-- Rootly cache resolving the overlapping mention pair. -/
def rootlyCacheX : List RootlyService :=
  [⟨"R8", some "P8"⟩, ⟨"R9", some "P9"⟩]

/-- Monitor whose second mention is a strict prefix of its first mention. -/
def monC1x : Monitor :=
  ⟨5, "@pagerduty-foobar @pagerduty-foo".toList, "query alert".toList, none⟩

/-- Environment for the overlapping-mention monitor. -/
def envC1x : Env :=
  ⟨pdCacheX, rootlyCacheX, false, fun _ => .success,
    fun i => if i = 5 then some monC1x else none⟩

/-- C1: the claim fails on overlapping mentions.  With message
`"@pagerduty-foobar @pagerduty-foo"`, both mentions distinct and resolvable,
the monitor write does happen, but its message is NOT the one with each new
webhook mention appended right after its respective original: the second
patch's first-occurrence replacement fires inside `@pagerduty-foobar`
(of which `@pagerduty-foo` is a prefix), splicing the new mention into the
middle of the first mention and leaving the trailing `@pagerduty-foo`
unmodified. -/
theorem claim_C1_counterexample :
    ((processMonitor envC1x monC1x).1.filter isMonitorWrite).length = 1 ∧
      (processMonitor envC1x monC1x).1.filter isMonitorWrite ≠
        [Call.monitorPut 5
          "@pagerduty-foobar @webhook-rootly-foobar @pagerduty-foo @webhook-rootly-foo".toList] := by
  constructor
  · decide
  · decide

/-- C10: a message containing the same resolvable mention at two positions
yields two identical patches, and applying them appends the new webhook
mention twice immediately after the FIRST occurrence of the old mention,
leaving the second occurrence unmodified. -/
theorem claim_C10_theorem (env : Env) (mon : Monitor)
    (m pre mid suf : List Char) (p r : String)
    (hnm : hasMarker mon.message = false)
    (hex : extractMentions mon.message = [m, m])
    (hm : m ≠ [])
    (hp : getPagerdutyServiceId env.pdCache (mentionFrag m) = some p)
    (hr : fetchRootlyServiceId env.rootlyCache p = some r)
    (hd : env.dryRun = false)
    (hw : env.webhookResp (mentionFrag m) ≠ WebhookResp.noResponse)
    (hf : env.fetchMonitor mon.id = some mon)
    (hmsg : mon.message = pre ++ m ++ (mid ++ m ++ suf))
    (hocc1 : ∀ i, i < pre.length →
      matchesAt m ((pre ++ m ++ (mid ++ m ++ suf)).drop i) = false)
    (hocc2 : ∀ i, i < pre.length →
      matchesAt m ((pre ++ m ++ (' ' :: webhookMention (mentionFrag m) ++ (mid ++ m ++ suf))).drop i) = false) :
    processMonitor env mon =
      ([Call.webhookPost (webhookName (mentionFrag m)) r,
        Call.webhookPost (webhookName (mentionFrag m)) r,
        Call.monitorGet mon.id,
        monitorWriteCall mon mon.id
          ((pre ++ (m ++ ' ' :: webhookMention (mentionFrag m))) ++
            (' ' :: webhookMention (mentionFrag m) ++ (mid ++ m ++ suf)))],
       [Outcome.mentionSuccess mon.id m (webhookMention (mentionFrag m)),
        Outcome.mentionSuccess mon.id m (webhookMention (mentionFrag m)),
        Outcome.updateRecord mon.id mon.message
          ((pre ++ (m ++ ' ' :: webhookMention (mentionFrag m))) ++
            (' ' :: webhookMention (mentionFrag m) ++ (mid ++ m ++ suf)))]) ∧
      ((extractMentions mon.message).map (processMention env mon.id)).filterMap
          MentionRes.patch =
        [(m, webhookMention (mentionFrag m)), (m, webhookMention (mentionFrag m))] := by
  have happ : applyPatches mon.message
      [(m, webhookMention (mentionFrag m)), (m, webhookMention (mentionFrag m))] =
      (pre ++ (m ++ ' ' :: webhookMention (mentionFrag m))) ++
        (' ' :: webhookMention (mentionFrag m) ++ (mid ++ m ++ suf)) := by
    rw [hmsg]
    unfold applyPatches
    simp only [List.foldl_cons, List.foldl_nil]
    rw [replaceFirst_insert hm _ pre (mid ++ m ++ suf) hocc1]
    have hassoc : (pre ++ (m ++ ' ' :: webhookMention (mentionFrag m))) ++ (mid ++ m ++ suf) =
        pre ++ m ++ (' ' :: webhookMention (mentionFrag m) ++ (mid ++ m ++ suf)) := by
      simp [List.append_assoc]
    rw [hassoc, replaceFirst_insert hm _ pre
      (' ' :: webhookMention (mentionFrag m) ++ (mid ++ m ++ suf)) hocc2]
  constructor
  · simp only [processMonitor, hnm, Bool.false_eq_true, if_false, hex,
      List.map_cons, List.map_nil,
      processMention_success hp hr hd hw,
      List.flatten_cons, List.flatten_nil, List.append_nil, List.nil_append,
      List.filterMap_cons, List.filterMap_nil,
      List.any_cons, List.any_nil, Bool.or_false, Bool.false_or,
      List.isEmpty, updateDatadogMonitor, hf, hd, happ]
    simp
  · simp only [hex, List.map_cons, List.map_nil,
      processMention_success hp hr hd hw,
      List.filterMap_cons, List.filterMap_nil]

/-- Monitor containing the same mention at two positions. -/
def monC10 : Monitor :=
  ⟨6, "x @pagerduty-foo y @pagerduty-foo z".toList, "query alert".toList, none⟩

/-- Environment for the duplicate-mention monitor. -/
def envC10 : Env :=
  ⟨pdCacheX, rootlyCacheX, false, fun _ => .success,
    fun i => if i = 6 then some monC10 else none⟩

/-- Monitor with a single resolvable mention, used for the endpoint-failure
and dry-run scenarios. -/
def monC6 : Monitor :=
  ⟨7, "hi @pagerduty-checkout go".toList, "query alert".toList, none⟩

/-- C6: an endpoint-creation failure CAN abort the subsequent rule rewrite:
when the webhook POST fails without an HTTP response (e.g. a timeout), the
catch block's `error.response.data.errors[0]` access raises a TypeError
that propagates to the per-monitor handler, so the monitor write that
happens under a successful creation does not happen. -/
theorem claim_C6_counterexample :
    ((processMonitor (mkEnv false .noResponse monC6) monC6).1.filter isMonitorWrite).length = 0 ∧
      ((processMonitor (mkEnv false .success monC6) monC6).1.filter isMonitorWrite).length = 1 := by
  constructor
  · decide
  · decide

/-- C6 (amended): an "already exists" response is treated identically to a
successful creation (same calls, no error log, no raise, and never any
outcome record); any other failure that carries an HTTP response is logged
via console.error and swallowed, so it does not abort the rewrite; but a
failure with no HTTP response raises out of the catch block and aborts that
monitor's remaining processing. -/
theorem claim_C6_theorem (sn : List Char) (sid : String) (errs : List String)
    (hne : errs.head? ≠ some "Webhook already exists") :
    createDatadogWebhook false (WebhookResp.httpError ["Webhook already exists"]) sn sid =
        createDatadogWebhook false WebhookResp.success sn sid ∧
      createDatadogWebhook false (WebhookResp.httpError errs) sn sid =
        ([Call.webhookPost (webhookName sn) sid], true, false) ∧
      (createDatadogWebhook false WebhookResp.noResponse sn sid).2.2 = true := by
  refine ⟨rfl, ?_, rfl⟩
  simp [createDatadogWebhook, hne]

/-- C6 witness: concrete service and error body. -/
theorem claim_C6_witness :
    createDatadogWebhook false (WebhookResp.httpError ["Webhook already exists"])
        "checkout".toList "R1" =
        createDatadogWebhook false WebhookResp.success "checkout".toList "R1" ∧
      createDatadogWebhook false (WebhookResp.httpError ["boom"]) "checkout".toList "R1" =
        ([Call.webhookPost (webhookName "checkout".toList) "R1"], true, false) ∧
      (createDatadogWebhook false WebhookResp.noResponse "checkout".toList "R1").2.2 = true :=
  claim_C6_theorem "checkout".toList "R1" ["boom"] (by decide)

/-- Dry-run behaviour of a mention, needing no assumption on the remote
webhook endpoint: no call is attempted and nothing raises. -/
theorem processMention_dry_basic {env : Env} (hd : env.dryRun = true)
    (monId : Nat) (m : List Char) :
    (processMention env monId m).calls = [] ∧
      (processMention env monId m).threw = false := by
  cases hp : getPagerdutyServiceId env.pdCache (mentionFrag m) with
  | none => simp [processMention, hp]
  | some pid =>
    cases hr : fetchRootlyServiceId env.rootlyCache pid with
    | none => simp [processMention, hp, hr]
    | some rid => simp [processMention, hp, hr, createDatadogWebhook, hd]

/-- Per-mention comparison of a dry run with the corresponding normal run
whose webhook call returns a response: identical outcomes, identical pending
patch, no raise on either side. -/
theorem processMention_dry {env : Env} (hd : env.dryRun = true)
    (monId : Nat) (m : List Char)
    (hw : env.webhookResp (mentionFrag m) ≠ WebhookResp.noResponse) :
    (processMention (setDry env false) monId m).threw = false ∧
      (processMention env monId m).outs = (processMention (setDry env false) monId m).outs ∧
      (processMention env monId m).patch = (processMention (setDry env false) monId m).patch := by
  cases hp : getPagerdutyServiceId env.pdCache (mentionFrag m) with
  | none => simp [processMention, setDry, hp]
  | some pid =>
    cases hr : fetchRootlyServiceId env.rootlyCache pid with
    | none => simp [processMention, setDry, hp, hr]
    | some rid =>
      cases hresp : env.webhookResp (mentionFrag m) with
      | success => simp [processMention, setDry, hp, hr, createDatadogWebhook, hd, hresp]
      | httpError errs =>
        by_cases he : errs.head? = some "Webhook already exists" <;>
          simp [processMention, setDry, hp, hr, createDatadogWebhook, hd, hresp, he]
      | noResponse => exact absurd hresp hw

/-- Mention-list comparison of a dry run with the corresponding normal
run. -/
theorem mentions_dry {env : Env} (hd : env.dryRun = true)
    (hw : ∀ s, env.webhookResp s ≠ WebhookResp.noResponse) (monId : Nat) :
    ∀ ms : List (List Char),
      ((ms.map (processMention env monId)).map MentionRes.calls).flatten = [] ∧
      (ms.map (processMention env monId)).any MentionRes.threw = false ∧
      (ms.map (processMention (setDry env false) monId)).any MentionRes.threw = false ∧
      ((ms.map (processMention env monId)).map MentionRes.outs) =
        ((ms.map (processMention (setDry env false) monId)).map MentionRes.outs) ∧
      (ms.map (processMention env monId)).filterMap MentionRes.patch =
        (ms.map (processMention (setDry env false) monId)).filterMap MentionRes.patch := by
  intro ms
  induction ms with
  | nil => simp
  | cons m rest ih =>
    obtain ⟨b1, b2⟩ := processMention_dry_basic hd monId m
    obtain ⟨h3, h4, h5⟩ := processMention_dry hd monId m (hw (mentionFrag m))
    obtain ⟨i1, i2, i3, i4, i5⟩ := ih
    refine ⟨?_, ?_, ?_, ?_, ?_⟩
    · simp only [List.map_cons, List.flatten_cons, b1, List.nil_append, i1]
    · simp only [List.map_cons, List.any_cons, b2, i2, Bool.or_self]
    · simp only [List.map_cons, List.any_cons, h3, i3, Bool.or_self]
    · simp only [List.map_cons, h4, i4]
    · simp only [List.map_cons, List.filterMap_cons]
      rw [h5]
      cases hpp : (processMention (setDry env false) monId m).patch <;> simp [i5]

/-- Outcome records of the rule rewriter do not depend on the dry-run flag:
both modes push the same `{monitor, oldMessage, newMessage}` record; only
the write call is suppressed. -/
theorem updateDatadogMonitor_outs_dry (env : Env) (monId : Nat)
    (patches : List (List Char × List Char)) :
    (updateDatadogMonitor env monId patches).2 =
      (updateDatadogMonitor (setDry env false) monId patches).2 := by
  cases hfm : env.fetchMonitor monId with
  | none => simp [updateDatadogMonitor, setDry, hfm]
  | some mm => cases hdd : env.dryRun <;> simp [updateDatadogMonitor, setDry, hfm, hdd]

/-- C8 (amended): with the dry-run flag set, no write call (webhook POST,
monitor PUT, or synthetics PATCH) is ever issued, and - provided the
corresponding normal run's endpoint-provisioning calls each return a
response - the dry run pushes exactly the same outcome records as that
normal run, including the intended old and new message bodies. -/
theorem claim_C8_theorem (env : Env) (mon : Monitor) (hd : env.dryRun = true)
    (hw : ∀ s, env.webhookResp s ≠ WebhookResp.noResponse) :
    (processMonitor env mon).1.filter isWriteCall = [] ∧
      (processMonitor env mon).2 = (processMonitor (setDry env false) mon).2 := by
  cases hmk : hasMarker mon.message with
  | true => constructor <;> simp [processMonitor, hmk]
  | false =>
    cases hext : extractMentions mon.message with
    | nil => constructor <;> simp [processMonitor, hmk, hext]
    | cons m ms =>
      obtain ⟨d1, d2, d3, d4, d5⟩ := mentions_dry hd hw mon.id (m :: ms)
      constructor
      · simp only [processMonitor, hmk, Bool.false_eq_true, if_false, hext, d2]
        by_cases hpe :
            (((m :: ms).map (processMention env mon.id)).filterMap MentionRes.patch).isEmpty = true
        · simp only [hpe, if_true, if_false, Bool.false_eq_true, d1, List.filter_nil]
        · simp only [hpe, if_false, Bool.false_eq_true, d1, List.nil_append,
            List.filter_append, List.filter_nil]
          cases hfm : env.fetchMonitor mon.id with
          | none => simp [updateDatadogMonitor, hfm, isWriteCall]
          | some mm => simp [updateDatadogMonitor, hfm, hd, isWriteCall]
      · simp only [processMonitor, hmk, Bool.false_eq_true, if_false, hext, d2, d3, d5]
        by_cases hpe :
            (((m :: ms).map (processMention (setDry env false) mon.id)).filterMap
              MentionRes.patch).isEmpty = true
        · simp only [hpe, if_true, if_false, Bool.false_eq_true, d4]
        · simp only [hpe, if_false, Bool.false_eq_true, d4,
            updateDatadogMonitor_outs_dry env mon.id]

/-- C8 witness: dry run at a concrete single-mention monitor. -/
theorem claim_C8_witness :
    (processMonitor (mkEnv true .success monC6) monC6).1.filter isWriteCall = [] ∧
      (processMonitor (mkEnv true .success monC6) monC6).2 =
        (processMonitor (setDry (mkEnv true .success monC6) false) monC6).2 :=
  claim_C8_theorem (mkEnv true .success monC6) monC6 rfl
    (fun _ h => WebhookResp.noConfusion h)

/-- C8: the outcome-preservation half of the claim fails when the normal
run's endpoint provisioning fails without a response: the normal run then
raises mid-monitor and never records the update (nor the success outcome),
while the dry run records both. -/
theorem claim_C8_counterexample :
    (processMonitor (mkEnv true .noResponse monC6) monC6).1.filter isWriteCall = [] ∧
      (processMonitor (mkEnv true .noResponse monC6) monC6).2 ≠
        (processMonitor (mkEnv false .noResponse monC6) monC6).2 := by
  constructor
  · decide
  · decide

end Migrator

namespace Migrator

/-- C10 witness: duplicate mention at a concrete monitor. -/
theorem claim_C10_witness :
    processMonitor envC10 monC10 =
      ([Call.webhookPost (webhookName (mentionFrag "@pagerduty-foo".toList)) "R9",
        Call.webhookPost (webhookName (mentionFrag "@pagerduty-foo".toList)) "R9",
        Call.monitorGet 6,
        monitorWriteCall monC10 6
          (("x ".toList ++ ("@pagerduty-foo".toList ++ ' ' :: webhookMention (mentionFrag "@pagerduty-foo".toList))) ++
            (' ' :: webhookMention (mentionFrag "@pagerduty-foo".toList) ++
              (" y ".toList ++ "@pagerduty-foo".toList ++ " z".toList)))],
       [Outcome.mentionSuccess 6 "@pagerduty-foo".toList
          (webhookMention (mentionFrag "@pagerduty-foo".toList)),
        Outcome.mentionSuccess 6 "@pagerduty-foo".toList
          (webhookMention (mentionFrag "@pagerduty-foo".toList)),
        Outcome.updateRecord 6 monC10.message
          (("x ".toList ++ ("@pagerduty-foo".toList ++ ' ' :: webhookMention (mentionFrag "@pagerduty-foo".toList))) ++
            (' ' :: webhookMention (mentionFrag "@pagerduty-foo".toList) ++
              (" y ".toList ++ "@pagerduty-foo".toList ++ " z".toList)))]) ∧
      ((extractMentions monC10.message).map (processMention envC10 6)).filterMap
          MentionRes.patch =
        [("@pagerduty-foo".toList, webhookMention (mentionFrag "@pagerduty-foo".toList)),
          ("@pagerduty-foo".toList, webhookMention (mentionFrag "@pagerduty-foo".toList))] :=
  claim_C10_theorem envC10 monC10 "@pagerduty-foo".toList
    "x ".toList " y ".toList " z".toList "P9" "R9"
    (by decide) (by decide) (by decide) (by decide) (by decide) rfl
    (by decide) (by decide) (by decide) (by decide) (by decide)

end Migrator
